import Mathlib

/-!
Shallow embedding of the pepper-backend tiered cache and batch-categorization
pipeline, together with proofs settling the specification claims.

Source files embedded here:
* `src/lib/sqliteCache.ts` — ephemeral SQLite cache (`generateRequestHash`,
  `cacheData`, `getCachedData`);
* `src/services/cacheService.ts` — string-key wrappers (`getCachedValue`,
  `setCachedValue`);
* `src/services/categorizeService.ts` — `createArticleId`,
  `categorizeArticleWithAI`, `categorizeArticleWithKeywords`, `checkCache`,
  `saveToSupabase`, `categorizeArticles`;
* `src/services/supabase.ts` — `getData`;
* `src/services/articlesService.ts` — `getCachedArticles`;
* `src/lib/scheduler.ts` — the guarded fetch-categorize-cache cron job.

External collaborators (the remote Supabase store's query engine, the hosted
classifier) are modelled as explicit oracle parameters; everything else is a
direct translation of the TypeScript.
-/

set_option maxHeartbeats 1000000

/-! ### String helpers (JavaScript primitives used by the source) -/

/-- Model of `Char`-wise lowercasing used by `String.prototype.toLowerCase`. -/
def strToLower (s : String) : String := ⟨s.data.map Char.toLower⟩

/-- Whether `pat` occurs at the head of `hay` (helper for substring search). -/
def listHasPref : List Char → List Char → Bool
  | _, [] => true
  | [], _ :: _ => false
  | h :: hs, p :: ps => h == p && listHasPref hs ps

/-- Whether `pat` occurs anywhere in `hay` (helper for substring search). -/
def listHasSub : List Char → List Char → Bool
  | [], pat => pat.isEmpty
  | h :: t, pat => listHasPref (h :: t) pat || listHasSub t pat

/-- Model of JavaScript `String.prototype.includes` (substring containment). -/
def strIncludes (s pat : String) : Bool := listHasSub s.data pat.data

/-- UTF-8 encoding of one character, as byte values. -/
def utf8CharBytes (c : Char) : List Nat :=
  let n := c.toNat
  if n < 128 then [n]
  else if n < 2048 then [192 + n / 64, 128 + n % 64]
  else if n < 65536 then [224 + n / 4096, 128 + n / 64 % 64, 128 + n % 64]
  else [240 + n / 262144, 128 + n / 4096 % 64, 128 + n / 64 % 64, 128 + n % 64]

/-- UTF-8 encoding of a string, as byte values (model of `Buffer.from(s)`). -/
def utf8Bytes (s : String) : List Nat := s.data.flatMap utf8CharBytes

/-- The base64 alphabet. -/
def b64Alphabet : String :=
  "ABCDEFGHIJKLMNOPQRSTUVWXYZabcdefghijklmnopqrstuvwxyz0123456789+/"

/-- The base64 digit for a 6-bit value. -/
def b64Char (n : Nat) : Char := b64Alphabet.data.getD n 'A'

/-- Standard base64 with padding (model of `Buffer.toString('base64')`). -/
def base64Encode : List Nat → String
  | [] => ""
  | [b1] =>
    ⟨[b64Char (b1 / 4), b64Char (b1 % 4 * 16), '=', '=']⟩
  | [b1, b2] =>
    ⟨[b64Char (b1 / 4), b64Char (b1 % 4 * 16 + b2 / 16), b64Char (b2 % 16 * 4), '=']⟩
  | b1 :: b2 :: b3 :: rest =>
    (⟨[b64Char (b1 / 4), b64Char (b1 % 4 * 16 + b2 / 16),
       b64Char (b2 % 16 * 4 + b3 / 64), b64Char (b3 % 64)]⟩ : String)
      ++ base64Encode rest

/-- Fuel-driven worker for `chunksOf` (structural recursion on the fuel, so
that the kernel can evaluate it; the fuel is always at least the list
length). -/
def chunksOfGo (n : Nat) : Nat → List α → List (List α)
  | _, [] => []
  | 0, _ :: _ => []
  | fuel + 1, x :: xs => (x :: xs.take (n - 1)) :: chunksOfGo n fuel (xs.drop (n - 1))

/-- Split a list into consecutive chunks of size `n` (the `for (i; i += n)`
slicing loops of `checkCache` and `saveToSupabase`). -/
def chunksOf (n : Nat) (l : List α) : List (List α) := chunksOfGo n l.length l

lemma chunksOfGo_congr (n : Nat) :
    ∀ (f g : Nat) (l : List α), l.length ≤ f → l.length ≤ g →
      chunksOfGo n f l = chunksOfGo n g l
  | f, g, [], _, _ => by cases f <;> cases g <;> rfl
  | 0, _, x :: xs, hf, _ => by simp at hf
  | _ + 1, 0, x :: xs, _, hg => by simp at hg
  | f + 1, g + 1, x :: xs, hf, hg => by
    simp only [List.length_cons] at hf hg
    have hf' : (xs.drop (n - 1)).length ≤ f := by
      simp only [List.length_drop]; omega
    have hg' : (xs.drop (n - 1)).length ≤ g := by
      simp only [List.length_drop]; omega
    simp only [chunksOfGo]
    rw [chunksOfGo_congr n f g (xs.drop (n - 1)) hf' hg']

lemma chunksOf_nil (n : Nat) : chunksOf n ([] : List α) = [] := rfl

lemma chunksOf_cons (n : Nat) (x : α) (xs : List α) :
    chunksOf n (x :: xs) = (x :: xs.take (n - 1)) :: chunksOf n (xs.drop (n - 1)) := by
  show chunksOfGo n (xs.length + 1) (x :: xs) = _
  simp only [chunksOfGo]
  rw [chunksOfGo_congr n xs.length (xs.drop (n - 1)).length (xs.drop (n - 1))
    (by simp) le_rfl]
  rfl

/-! ### Association-list helpers

JavaScript plain objects (`Record<string, T>`) and `Map` are modelled as
insertion-ordered association lists: `set` overwrites in place or appends,
exactly as JS key enumeration order behaves for string keys. -/

/-- Lookup in a JS object / `Map`. -/
def lookupAssoc (l : List (String × α)) (k : String) : Option α :=
  (l.find? (fun p => p.1 == k)).map (·.2)

/-- `obj[k] = v` / `Map.set`: overwrite in place, else append. -/
def setAssoc (l : List (String × α)) (k : String) (v : α) : List (String × α) :=
  if l.any (fun p => p.1 == k) then l.map (fun p => if p.1 == k then (k, v) else p)
  else l ++ [(k, v)]

/-- `Map.delete k`. -/
def delAssoc (l : List (String × α)) (k : String) : List (String × α) :=
  l.filter (fun p => p.1 != k)

/-! ### Data model (`Article`, Supabase record) -/

/-- `Article` from `src/lib/scraper.ts`. -/
structure Article where
  title : String
  description : String
  price : String
  shippingPrice : String
  image : String
  link : String
deriving DecidableEq, Repr

/-- A row of the `categorized_articles` table (`CategorizedArticle` in
`src/services/supabase.ts`). -/
structure CategorizedArticle where
  article_id : String
  title : String
  description : String
  price : String
  shipping_price : String
  image : String
  link : String
  category : String
  created_at : String
deriving DecidableEq, Repr

/-- `createArticleId` from `src/services/categorizeService.ts`:
`Buffer.from(link).toString('base64')`. -/
def createArticleId (link : String) : String := base64Encode (utf8Bytes link)

/-- `toArticleFromSupabase` from `src/services/categorizeService.ts`
(the `|| ''` defaults are the identity on total strings). -/
def toArticleFromSupabase (r : CategorizedArticle) : Article :=
  { title := r.title, description := r.description, price := r.price,
    shippingPrice := r.shipping_price, image := r.image, link := r.link }

/-- `predefinedCategories` from `src/services/categorizeService.ts`. -/
def predefinedCategories : List String :=
  ["Electronics", "Home & Household", "Fashion", "Food & Grocery",
   "Sports & Outdoor", "Beauty & Health", "Travel", "Entertainment",
   "Kids & Toys", "Automotive", "Services", "Other Deals"]

/-! ### Keyword categorization (`categorizeArticleWithKeywords`) -/

/-- `categoryKeywords` from `categorizeArticleWithKeywords` in
`src/services/categorizeService.ts`, in source order. -/
def categoryKeywords : List (String × List String) :=
  [("Electronics",
    ["phone", "smartphone", "iphone", "samsung", "laptop", "computer", "pc",
     "monitor", "tv", "television", "smart", "electronic", "device", "gadget",
     "tech", "speaker", "headphone", "earbuds", "audio", "video", "camera",
     "gaming", "console", "playstation", "xbox", "nintendo", "wireless",
     "bluetooth", "charging", "tablet", "ipad", "keyboard", "mouse", "router",
     "wifi", "printer"]),
   ("Home & Household",
    ["furniture", "home", "kitchen", "bathroom", "bedroom", "living", "house",
     "garden", "patio", "dÃ©cor", "decoration", "appliance", "cleaning",
     "vacuum", "chair", "table", "sofa", "bed", "mattress", "pillow",
     "curtains", "lamp", "lighting", "cookware", "utensils", "dishes",
     "storage", "organizer", "tools", "lawn", "plants", "bbq", "grill"]),
   ("Fashion",
    ["clothing", "clothes", "fashion", "wear", "dress", "shirt", "pants",
     "jeans", "jacket", "coat", "shoes", "sneakers", "boots", "sandals",
     "accessory", "accessories", "watch", "jewelry", "bag", "handbag",
     "backpack", "wallet", "belt", "hat", "cap", "scarf", "gloves", "socks",
     "underwear", "t-shirt", "shorts", "hoodie", "sweater"]),
   ("Food & Grocery",
    ["food", "grocery", "meal", "snack", "drink", "beverage", "coffee", "tea",
     "water", "juice", "soda", "beer", "wine", "alcohol", "fruit", "vegetable",
     "meat", "fish", "dairy", "milk", "cheese", "yogurt", "bread", "pasta",
     "rice", "cereal", "chocolate", "candy", "sweet", "organic", "restaurant",
     "takeaway", "delivery"]),
   ("Sports & Outdoor",
    ["sport", "fitness", "exercise", "workout", "gym", "training", "running",
     "cycling", "bike", "bicycle", "hiking", "camping", "outdoor", "adventure",
     "fishing", "hunting", "golf", "tennis", "swimming", "basketball",
     "football", "soccer", "baseball", "volleyball", "ski", "snowboard",
     "skateboard", "surf", "yoga", "mat"]),
   ("Beauty & Health",
    ["beauty", "health", "skincare", "skin", "face", "body", "hair", "makeup",
     "cosmetic", "nail", "perfume", "fragrance", "cream", "lotion", "shampoo",
     "conditioner", "soap", "shower", "bath", "toothbrush", "toothpaste",
     "dental", "vitamin", "supplement", "medicine", "pharmacy", "first aid",
     "healthcare", "wellness"]),
   ("Travel",
    ["travel", "trip", "vacation", "holiday", "hotel", "resort", "booking",
     "flight", "airline", "airplane", "airport", "ticket", "luggage",
     "suitcase", "passport", "tour", "tourism", "tourist", "destination",
     "beach", "mountain", "city", "country", "international", "domestic",
     "train", "bus", "car rental", "cruise"]),
   ("Entertainment",
    ["entertainment", "fun", "game", "toy", "play", "movie", "film", "cinema",
     "theater", "theatre", "music", "concert", "festival", "show", "event",
     "ticket", "stream", "streaming", "subscription", "netflix", "spotify",
     "disney", "amazon", "hbo", "book", "ebook", "audiobook", "podcast",
     "board game"]),
   ("Kids & Toys",
    ["kid", "child", "children", "baby", "infant", "toddler", "toy", "game",
     "play", "lego", "doll", "action figure", "puzzle", "educational",
     "learning", "school", "daycare", "stroller", "car seat", "diaper",
     "bottle", "pacifier", "clothing", "shoes", "book", "backpack",
     "lunch box"]),
   ("Automotive",
    ["car", "auto", "automotive", "vehicle", "truck", "suv", "van",
     "motorcycle", "scooter", "bike", "part", "accessory", "oil", "tire",
     "wheel", "battery", "engine", "transmission", "brake", "light", "seat",
     "cover", "mat", "charger", "cleaner", "wash", "polish", "repair",
     "maintenance", "service"]),
   ("Services",
    ["service", "subscription", "membership", "plan", "insurance", "warranty",
     "protection", "repair", "installation", "setup", "delivery", "shipping",
     "maintenance", "cleaning", "consulting", "advice", "support",
     "assistance", "care", "education", "course", "class", "tutorial",
     "training", "coaching", "financial", "legal", "medical", "dental"]),
   ("Other Deals", [])]

/-- The `matches` count of one category: keywords occurring in the text. -/
def keywordMatches (text : String) (keywords : List String) : Nat :=
  (keywords.filter (fun keyword => strIncludes text keyword)).length

/-- One iteration of the `for (const [category, keywords] ...)` loop: skip the
default category, otherwise keep the strictly better scorer. -/
def keywordStep (text : String) (acc : String × Nat) (entry : String × List String) :
    String × Nat :=
  if entry.1 = "Other Deals" then acc
  else
    let m := keywordMatches text entry.2
    if m > acc.2 then (entry.1, m) else acc

/-- `categorizeArticleWithKeywords` from `src/services/categorizeService.ts`. -/
def categorizeArticleWithKeywords (article : Article) : String :=
  let textToAnalyze := strToLower article.title ++ " " ++ strToLower article.description
  (categoryKeywords.foldl (keywordStep textToAnalyze) ("Other Deals", 0)).1

/-! ### Spec-side keyword selection (for the C6 refinement comparison) -/

/-- Per the spec's words: the scores of the non-default categories, each the
number of keywords occurring as case-insensitive substrings of
`title + " " + description`. -/
def keywordScores (a : Article) : List (String × Nat) :=
  let text := strToLower (a.title ++ " " ++ a.description)
  (categoryKeywords.filter (fun p => p.1 != "Other Deals")).map
    (fun p => (p.1, keywordMatches text p.2))

/-- The maximum of a score list (0 when empty). -/
def maxScore (l : List (String × Nat)) : Nat := l.foldr (fun p m => max p.2 m) 0

/-- Per the spec's words: the category with the highest score wins, a tie keeps
the first-seen highest scorer, zero matches across all categories resolves to
the default category. -/
def specKeywordCategory (a : Article) : String :=
  let scores := keywordScores a
  if maxScore scores = 0 then "Other Deals"
  else ((scores.find? (fun p => p.2 == maxScore scores)).map (·.1)).getD "Other Deals"

/-- The accumulator step of the selection loop, on precomputed scores. -/
def selStep (acc p : String × Nat) : String × Nat := if p.2 > acc.2 then p else acc

lemma strToLower_append (s t : String) :
    strToLower (s ++ t) = strToLower s ++ strToLower t := by
  apply congrArg String.mk
  show ((s ++ t).data).map Char.toLower = (strToLower s).data ++ (strToLower t).data
  simp [strToLower, String.data_append]

lemma foldl_keywordStep_eq (text : String) :
    ∀ (l : List (String × List String)) (acc : String × Nat),
      l.foldl (keywordStep text) acc =
        ((l.filter (fun p => p.1 != "Other Deals")).map
          (fun p => (p.1, keywordMatches text p.2))).foldl selStep acc
  | [], _ => rfl
  | p :: l, acc => by
    by_cases hp : p.1 = "Other Deals"
    · have h1 : keywordStep text acc p = acc := by simp [keywordStep, hp]
      have h2 : List.filter (fun q => q.1 != "Other Deals") (p :: l) =
          List.filter (fun q => q.1 != "Other Deals") l := by
        simp [List.filter_cons, hp]
      rw [List.foldl_cons, h1, h2]
      exact foldl_keywordStep_eq text l acc
    · have h1 : keywordStep text acc p = selStep acc (p.1, keywordMatches text p.2) := by
        simp [keywordStep, selStep, hp]
      have h2 : List.filter (fun q => q.1 != "Other Deals") (p :: l) =
          p :: List.filter (fun q => q.1 != "Other Deals") l := by
        simp [List.filter_cons, hp]
      rw [List.foldl_cons, h1, h2, List.map_cons, List.foldl_cons]
      exact foldl_keywordStep_eq text l _

lemma maxScore_cons (p : String × Nat) (l : List (String × Nat)) :
    maxScore (p :: l) = max p.2 (maxScore l) := rfl

lemma foldl_selStep_of_le :
    ∀ (l : List (String × Nat)) (acc : String × Nat),
      maxScore l ≤ acc.2 → l.foldl selStep acc = acc
  | [], _, _ => rfl
  | p :: l, acc, h => by
    rw [maxScore_cons] at h
    simp only [List.foldl_cons, selStep]
    rw [if_neg (by omega)]
    exact foldl_selStep_of_le l acc (by omega)

lemma foldl_selStep_of_lt :
    ∀ (l : List (String × Nat)) (acc : String × Nat), acc.2 < maxScore l →
      ∃ p, l.find? (fun q => q.2 == maxScore l) = some p ∧
        l.foldl selStep acc = p ∧ p.2 = maxScore l
  | [], acc, h => by simp [maxScore] at h
  | p :: l, acc, h => by
    by_cases hp : p.2 = maxScore (p :: l)
    · refine ⟨p, ?_, ?_, hp⟩
      · simp [List.find?_cons, hp]
      · have hacc : p.2 > acc.2 := by rw [← hp] at h; exact h
        simp only [List.foldl_cons, selStep, if_pos hacc]
        apply foldl_selStep_of_le
        rw [maxScore_cons] at hp
        omega
    · have hml : maxScore (p :: l) = maxScore l := by
        rw [maxScore_cons] at hp ⊢
        omega
      have hfind : (p.2 == maxScore (p :: l)) = false := by
        simpa using hp
      by_cases hgt : p.2 > acc.2
      · have hplt : p.2 < maxScore l := by
          rw [maxScore_cons] at hp
          omega
        obtain ⟨q, hq1, hq2, hq3⟩ := foldl_selStep_of_lt l p hplt
        refine ⟨q, ?_, ?_, ?_⟩
        · rw [List.find?_cons, hfind, hml]
          exact hq1
        · simp only [List.foldl_cons, selStep, if_pos hgt]
          exact hq2
        · rw [hml]; exact hq3
      · have hlt : acc.2 < maxScore l := by rw [← hml]; exact h
        obtain ⟨q, hq1, hq2, hq3⟩ := foldl_selStep_of_lt l acc hlt
        refine ⟨q, ?_, ?_, ?_⟩
        · rw [List.find?_cons, hfind, hml]
          exact hq1
        · simp only [List.foldl_cons, selStep, if_neg hgt]
          exact hq2
        · rw [hml]; exact hq3

/-- C6: the keyword strategy scores each non-default category by the number of
its keywords occurring as case-insensitive substrings of
`title + " " + description`; the highest score wins, a tie keeps the
first-seen highest scorer, zero matches yields "Other Deals"; in particular
"iPhone 15 case" / "silicone cover" yields "Electronics" and an input matching
no keyword yields "Other Deals". -/
theorem c6_keyword_strategy :
    (∀ a : Article, categorizeArticleWithKeywords a = specKeywordCategory a)
    ∧ categorizeArticleWithKeywords
        { title := "iPhone 15 case", description := "silicone cover",
          price := "20 zł", shippingPrice := "", image := "", link := "l1" }
        = "Electronics"
    ∧ categorizeArticleWithKeywords
        { title := "zzz", description := "qqq", price := "", shippingPrice := "",
          image := "", link := "l2" }
        = "Other Deals" := by
  refine ⟨?_, by decide, by decide⟩
  intro a
  have hsp : strToLower " " = " " := by decide
  have htext : strToLower (a.title ++ " " ++ a.description)
      = strToLower a.title ++ " " ++ strToLower a.description := by
    rw [strToLower_append, strToLower_append, hsp]
  show (categoryKeywords.foldl
      (keywordStep (strToLower a.title ++ " " ++ strToLower a.description))
      ("Other Deals", 0)).1 = specKeywordCategory a
  rw [foldl_keywordStep_eq]
  unfold specKeywordCategory keywordScores
  rw [htext]
  set scores := (categoryKeywords.filter (fun q => q.1 != "Other Deals")).map
    (fun q => (q.1, keywordMatches
      (strToLower a.title ++ " " ++ strToLower a.description) q.2)) with hscores
  by_cases h0 : maxScore scores = 0
  · rw [foldl_selStep_of_le scores _ (le_of_eq h0)]
    rw [if_pos h0]
  · obtain ⟨p, hfind, hfold, hp2⟩ :=
      foldl_selStep_of_lt scores ("Other Deals", 0) (by omega)
    rw [hfold, if_neg h0, hfind]
    rfl

/-! ### Ephemeral SQLite cache
(`src/lib/sqliteCache.ts` and `src/services/cacheService.ts`)

The `articles_cache` table is a list of rows `(request_hash, data, created_at)`
with `request_hash` as primary key (`INSERT OR REPLACE`). The payload column
holds `JSON.stringify` of the cached value; since `getCachedData` returns
`JSON.parse` of exactly the stored text, serialization is modelled as the
identity on the payload value of type `α`. Times are integer seconds. -/

abbrev CacheState (α : Type) : Type := List (String × α × Int)

/-- Lexicographic comparison of character lists by code unit
(the comparison used by JavaScript `Array.prototype.sort()`). -/
def charListLe : List Char → List Char → Bool
  | [], _ => true
  | _ :: _, [] => false
  | a :: as, b :: bs =>
    if a.toNat < b.toNat then true
    else if b.toNat < a.toNat then false
    else charListLe as bs

/-- String comparison by code units. -/
def strLe (a b : String) : Bool := charListLe a.data b.data

/-- Insertion sort of the parameter object's entries by key
(model of `Object.keys(params).sort()`). -/
def insertSorted (p : String × String) : List (String × String) → List (String × String)
  | [] => [p]
  | q :: qs => if strLe p.1 q.1 then p :: q :: qs else q :: insertSorted p qs

/-- Sort parameter entries by key. -/
def sortParamsByKey (params : List (String × String)) : List (String × String) :=
  params.foldr insertSorted []

/-- Model of `Array.prototype.join('|')`. -/
def joinBar : List String → String
  | [] => ""
  | [x] => x
  | x :: y :: rest => x ++ "|" ++ joinBar (y :: rest)

/-- `generateRequestHash` from `src/lib/sqliteCache.ts`:
`md5(keys.sort().map(k => k + ":" + params[k]).join("|"))`. The md5 digest is
modelled by its preimage string: md5 is deterministic, and the spec itself
treats the fingerprint as collision-free, so an injective digest model is
faithful for equality of cache keys. -/
def generateRequestHash (params : List (String × String)) : String :=
  joinBar ((sortParamsByKey params).map (fun p => p.1 ++ ":" ++ p.2))

/-- `INSERT OR REPLACE INTO articles_cache (request_hash, data, created_at)`. -/
def insertOrReplace (st : CacheState α) (h : String) (d : α) (t : Int) : CacheState α :=
  if st.any (fun r => r.1 == h) then st.map (fun r => if r.1 == h then (h, d, t) else r)
  else st ++ [(h, d, t)]

/-- `SELECT data, created_at FROM articles_cache WHERE request_hash = ?`. -/
def selectRow (st : CacheState α) (h : String) : Option (α × Int) :=
  (st.find? (fun r => r.1 == h)).map (fun r => r.2)

/-- `cacheData(params, data)` from `src/lib/sqliteCache.ts`. -/
def cacheData (st : CacheState α) (now : Int) (params : List (String × String))
    (data : α) : CacheState α × Bool :=
  (insertOrReplace st (generateRequestHash params) data now, true)

/-- `getCachedData(params, maxAgeSeconds = 3600)` from `src/lib/sqliteCache.ts`:
a row is a valid hit iff `created_at > now − maxAgeSeconds`. -/
def getCachedData (st : CacheState α) (now : Int) (params : List (String × String))
    (maxAgeSeconds : Int) : Option α :=
  let requestHash := generateRequestHash params
  let minTimestamp := now - maxAgeSeconds
  match selectRow st requestHash with
  | some (d, created) => if created > minTimestamp then some d else none
  | none => none

/-- `config.CACHE.DEFAULTS.TTL` (default 3600 seconds). -/
def defaultTTL : Int := 3600

/-- `setCachedValue(key, value, ttl = config.CACHE.DEFAULTS.TTL)` from
`src/services/cacheService.ts`: `cacheData({ key, ttl }, value)` — the
parameter object passed to `cacheData` contains BOTH `key` and `ttl`. -/
def setCachedValue (st : CacheState α) (now : Int) (key : String) (value : α)
    (ttl : Int) : CacheState α × Bool :=
  cacheData st now [("key", key), ("ttl", toString ttl)] value

/-- `getCachedValue(key)` from `src/services/cacheService.ts`:
`getCachedData({ key }, config.CACHE.DEFAULTS.TTL)` — the parameter object
contains ONLY `key`. -/
def getCachedValue (st : CacheState α) (now : Int) (key : String) : Option α :=
  getCachedData st now [("key", key)] defaultTTL

/-- C1: the TTL round-trip claim fails at the concrete input
`setCachedValue("k", "v", T = 100)` written at `t0 = 0`: the subsequent
`getCachedValue("k")` misses at EVERY read time `t` — in particular at
`t0 + T − 1 = 99`, where the claim demands the hit `some "v"` — because the
set stores under the hash of the `{key, ttl}` parameter object while the get
looks up the hash of `{key}` alone, so the two cache keys never coincide. -/
theorem c1_ttl_roundtrip_failing_eval :
    ∀ t : Int,
      getCachedValue ((setCachedValue ([] : CacheState String) 0 "k" "v" 100).1) t "k" = none := by
  intro t
  have hrow : selectRow ((setCachedValue ([] : CacheState String) 0 "k" "v" 100).1)
      (generateRequestHash [("key", "k")]) = none := by decide
  show getCachedData _ t [("key", "k")] defaultTTL = none
  simp only [getCachedData, hrow]

/-! ### Durable-store lookup and the batch pipeline
(`src/services/categorizeService.ts`)

The remote store is modelled by the list of rows of `categorized_articles`;
a sub-batch query that throws at the remote end is modelled by a per-call
failure oracle. The hosted classifier is an oracle
`Article → Except Unit String` (error, or the completion text). -/

/-- The rows matching an `in` filter on `article_id` — what the remote store
answers for one sub-batch query of `checkCache`. -/
def getDataInFilter (store : List CategorizedArticle) (ids : List String) :
    List CategorizedArticle :=
  store.filter (fun r => ids.contains r.article_id)

/-- `getDataFromSupabase` from `src/services/categorizeService.ts`: returns
`[]` when Supabase is not configured, and catches a thrown query error
(modelled by the `fails` flag) by logging and returning `[]`. -/
def getDataFromSupabase (configured : Bool) (store : List CategorizedArticle)
    (fails : Bool) (ids : List String) : List CategorizedArticle :=
  if !configured then []
  else if fails then []
  else getDataInFilter store ids

abbrev ArticleMap := List (String × Article)

abbrev CatMap := List (String × List Article)

/-- `record[category].push(article)` on a `Record<string, Article[]>`
(create the key on first use, else append in place). -/
def catPush (c : CatMap) (cat : String) (a : Article) : CatMap :=
  if c.any (fun p => p.1 == cat) then
    c.map (fun p => if p.1 == cat then (p.1, p.2 ++ [a]) else p)
  else c ++ [(cat, [a])]

/-- The `articles.forEach` prologue of `checkCache`: build the
id-to-article `Map`. -/
def buildArticleMap (articles : List Article) : ArticleMap :=
  articles.foldl (fun m a => setAssoc m (createArticleId a.link) a) []

/-- The `data.forEach` body of `checkCache`: push the row's article into the
category record and delete its id from the article map. -/
def processRow (acc : ArticleMap × CatMap) (r : CategorizedArticle) :
    ArticleMap × CatMap :=
  (delAssoc acc.1 r.article_id, catPush acc.2 r.category (toArticleFromSupabase r))

/-- The mutable state of the sub-batch loop of `checkCache`, plus a count of
issued sub-batch queries (for effect accounting). -/
structure BatchLoopState where
  map : ArticleMap
  cached : CatMap
  cachedIds : List String
  queryCalls : Nat
deriving DecidableEq, Repr

/-- The `for (let i = 0; i < articleIds.length; i += batchSize)` loop of
`checkCache`, one recursion step per sub-batch; `failsAt i` says whether the
`i`-th sub-batch query throws at the remote store. -/
def processBatches (configured : Bool) (store : List CategorizedArticle)
    (failsAt : Nat → Bool) :
    List (List String) → Nat → BatchLoopState → BatchLoopState
  | [], _, s => s
  | batchIds :: rest, i, s =>
    if batchIds.isEmpty then processBatches configured store failsAt rest (i + 1) s
    else
      let data := getDataFromSupabase configured store (failsAt i) batchIds
      if data.length > 0 then
        let mc := data.foldl processRow (s.map, s.cached)
        processBatches configured store failsAt rest (i + 1)
          ⟨mc.1, mc.2, s.cachedIds ++ data.map (·.article_id), s.queryCalls + 1⟩
      else
        processBatches configured store failsAt rest (i + 1)
          { s with queryCalls := s.queryCalls + 1 }

/-- The result of `checkCache`, with the query-call count. -/
structure CacheCheckResult where
  cachedArticles : CatMap
  uncachedArticles : List Article
  cachedArticleIds : List String
  queryCalls : Nat
deriving DecidableEq, Repr

/-- `checkCache` from `src/services/categorizeService.ts`: batch size 20;
ids of rows returned by a succeeding sub-batch query are deleted from the
article map; the survivors (`Array.from(articleMap.values())`) are the
uncached articles. -/
def checkCache (configured : Bool) (store : List CategorizedArticle)
    (failsAt : Nat → Bool) (articles : List Article) : CacheCheckResult :=
  if !configured then ⟨[], articles, [], 0⟩
  else
    let articleIds := articles.map (fun a => createArticleId a.link)
    let s := processBatches configured store failsAt (chunksOf 20 articleIds) 0
      ⟨buildArticleMap articles, [], [], 0⟩
    ⟨s.cached, s.map.map (·.2), s.cachedIds, s.queryCalls⟩

/-- `categorizeArticleWithAI` from `src/services/categorizeService.ts`: one
classifier call; on any error the internal catch returns the default
category; a falsy or out-of-enumeration label also yields the default. -/
def categorizeArticleWithAI (classifier : Article → Except Unit String)
    (a : Article) : String :=
  match classifier a with
  | .error _ => "Other Deals"
  | .ok predictedCategory =>
    if predictedCategory != "" && predefinedCategories.contains predictedCategory then
      predictedCategory
    else "Other Deals"

/-- One record built by `saveToSupabase` (the `created_at` field is
`new Date().toISOString()` at save time). -/
def toSupaRecord (nowIso : String) (category : String) (a : Article) :
    CategorizedArticle :=
  { article_id := createArticleId a.link, title := a.title,
    description := a.description, price := a.price,
    shipping_price := a.shippingPrice, image := a.image, link := a.link,
    category := category, created_at := nowIso }

/-- `saveToSupabase` from `src/services/categorizeService.ts` (the TypeScript
version): a missing category while building records throws, and the outer
catch turns that into a return of 0; records are upserted in batches of 50;
a batch whose upsert fails (`upsertFails batch`) is logged and skipped — the
loop continues with the next batch and no per-record retry is made. Returns
`(savedCount, number of upsert calls issued)`. -/
def saveToSupabase (configured : Bool)
    (upsertFails : List CategorizedArticle → Bool) (nowIso : String)
    (articles : List Article) (articleCategories : List (String × String)) :
    Nat × Nat :=
  if !configured then (0, 0)
  else if articles.any (fun a => (lookupAssoc articleCategories a.link).isNone) then (0, 0)
  else
    let records := articles.map (fun a =>
      toSupaRecord nowIso ((lookupAssoc articleCategories a.link).getD "") a)
    (chunksOf 50 records).foldl
      (fun acc batch =>
        if upsertFails batch then (acc.1, acc.2 + 1)
        else (acc.1 + batch.length, acc.2 + 1))
      (0, 0)

/-- The result of `categorizeArticles`, with effect counts: classifier calls
attempted, upsert calls issued, sub-batch lookup queries issued. -/
structure CategorizeOutcome where
  categorizedArticles : CatMap
  fromCache : Bool
  classifierCalls : Nat
  upsertCalls : Nat
  queryCalls : Nat
deriving DecidableEq, Repr

/-- The per-article body of the classification loop of `categorizeArticles`:
choose the category (AI when enabled, else keywords), record it under the
article's link, and push the article into the category record. The third
component counts classifier calls. -/
def classifyStep (useAI : Bool) (classifier : Article → Except Unit String)
    (acc : List (String × String) × CatMap × Nat) (a : Article) :
    List (String × String) × CatMap × Nat :=
  let category := if useAI then categorizeArticleWithAI classifier a
    else categorizeArticleWithKeywords a
  (setAssoc acc.1 a.link category, catPush acc.2.1 category a,
    acc.2.2 + (if useAI then 1 else 0))

/-- `categorizeArticles` from `src/services/categorizeService.ts`.
`articles?` is `none` for a missing (`null`/`undefined`) input; `useAIOpt`
and `saveOpt` are the values of `options.useAI !== false` and
`options.saveToSupabase !== false`; `hasApiKey` is `!!config.OPENAI_API_KEY`. -/
def categorizeArticles (configured : Bool) (store : List CategorizedArticle)
    (failsAt : Nat → Bool) (classifier : Article → Except Unit String)
    (upsertFails : List CategorizedArticle → Bool) (nowIso : String)
    (useAIOpt saveOpt hasApiKey : Bool) (articles? : Option (List Article)) :
    CategorizeOutcome :=
  match articles? with
  | none => ⟨[], false, 0, 0, 0⟩
  | some articles =>
    if articles.isEmpty then ⟨[], false, 0, 0, 0⟩
    else
      let cc := checkCache configured store failsAt articles
      if cc.uncachedArticles.isEmpty then
        ⟨cc.cachedArticles, true, 0, 0, cc.queryCalls⟩
      else
        let useAI := useAIOpt && hasApiKey
        let r := cc.uncachedArticles.foldl (classifyStep useAI classifier)
          ([], cc.cachedArticles, 0)
        let save := if saveOpt then
            saveToSupabase configured upsertFails nowIso cc.uncachedArticles r.1
          else (0, 0)
        let nonEmpty := r.2.1.filter (fun p => p.2.length > 0)
        ⟨nonEmpty,
          decide (0 < cc.cachedArticleIds.length) && cc.uncachedArticles.isEmpty,
          r.2.2, save.2, cc.queryCalls⟩

/-- C10: for a missing input and for the empty input list, `categorizeArticles`
returns an empty category map with `fromCache = false`, performing no
durable-store lookup, no classifier call and no persist. -/
theorem c10_empty_input (configured : Bool) (store : List CategorizedArticle)
    (failsAt : Nat → Bool) (classifier : Article → Except Unit String)
    (upsertFails : List CategorizedArticle → Bool) (nowIso : String)
    (useAIOpt saveOpt hasApiKey : Bool) :
    categorizeArticles configured store failsAt classifier upsertFails nowIso
        useAIOpt saveOpt hasApiKey none
      = ⟨[], false, 0, 0, 0⟩
    ∧ categorizeArticles configured store failsAt classifier upsertFails nowIso
        useAIOpt saveOpt hasApiKey (some [])
      = ⟨[], false, 0, 0, 0⟩ :=
  ⟨rfl, rfl⟩

/-- C3 counterexample: for the uncached article `{title := "iphone", ...}`
with the AI strategy enabled and a classifier that errors, the article is
categorized "Other Deals" by `categorizeArticles`, while the keyword strategy
computes "Electronics" for the same article — so the claim "the article's
category is the one computed by categorizeArticleWithKeywords" is false. -/
theorem c3_counterexample :
    (categorizeArticles true [] (fun _ => false) (fun _ => .error ())
        (fun _ => false) "t" true true true
        (some [⟨"iphone", "", "", "", "", "l1"⟩])).categorizedArticles
      = [("Other Deals", [⟨"iphone", "", "", "", "", "l1"⟩])]
    ∧ categorizeArticleWithKeywords ⟨"iphone", "", "", "", "", "l1"⟩
      = "Electronics" := by
  constructor
  · rfl
  · decide

/-- C3 amended: on any classifier error, or when the returned label is falsy
or outside the fixed enumeration, `categorizeArticleWithAI` resolves to the
default category "Other Deals" (its internal catch absorbs the failure, so it
never throws and the keyword strategy is not consulted). -/
theorem c3_amended (classifier : Article → Except Unit String) (a : Article)
    (h : classifier a = .error ()
      ∨ ∃ l, classifier a = .ok l
          ∧ (predefinedCategories.contains l = false ∨ l = "")) :
    categorizeArticleWithAI classifier a = "Other Deals" := by
  rcases h with h | ⟨l, hl, hbad | hbad⟩
  · simp [categorizeArticleWithAI, h]
  · have hm : l ∉ predefinedCategories := by simpa using hbad
    simp [categorizeArticleWithAI, hl, hm]
  · simp [categorizeArticleWithAI, hl, hbad]

/-- Witness for the amended C3 at a concrete input: an erroring classifier on
a concrete article yields "Other Deals". -/
theorem c3_amended_witness :
    categorizeArticleWithAI (fun _ => .error ()) ⟨"iphone", "", "", "", "", "l1"⟩
      = "Other Deals" :=
  c3_amended (fun _ => .error ()) ⟨"iphone", "", "", "", "", "l1"⟩ (Or.inl rfl)

/-- The total size of the batches whose upsert succeeds. -/
def savedSum (upsertFails : List CategorizedArticle → Bool)
    (batches : List (List CategorizedArticle)) : Nat :=
  ((batches.filter (fun b => !upsertFails b)).map List.length).sum

lemma saveToSupabase_foldl_eq (upsertFails : List CategorizedArticle → Bool) :
    ∀ (batches : List (List CategorizedArticle)) (acc : Nat × Nat),
      (batches.foldl
        (fun acc batch =>
          if upsertFails batch then (acc.1, acc.2 + 1)
          else (acc.1 + batch.length, acc.2 + 1)) acc)
      = (acc.1 + savedSum upsertFails batches, acc.2 + batches.length)
  | [], acc => by simp [savedSum]
  | b :: batches, acc => by
    cases hb : upsertFails b with
    | true =>
      rw [List.foldl_cons, if_pos hb, saveToSupabase_foldl_eq upsertFails batches]
      simp [savedSum, List.filter_cons, hb]
      omega
    | false =>
      rw [List.foldl_cons, if_neg (by simp [hb]),
        saveToSupabase_foldl_eq upsertFails batches]
      simp [savedSum, List.filter_cons, hb]
      omega

/-- C2 counterexample: two records whose 2-element batch upsert fails while
any single-record upsert would succeed (`upsertFails b ↔ b.length ≠ 1`).
`saveToSupabase` returns a persisted count of 0 after exactly 1 upsert call:
no single-record retries are issued and both records of the batch are
dropped, so the failed batch is NOT retried as individual writes (which
would have persisted 2 records). -/
theorem c2_counterexample :
    saveToSupabase true (fun b => decide (b.length ≠ 1)) "t0"
        [⟨"iphone", "", "", "", "", "l1"⟩, ⟨"garden table", "", "", "", "", "l2"⟩]
        [("l1", "Electronics"), ("l2", "Electronics")]
      = (0, 1)
    ∧ (saveToSupabase true (fun b => decide (b.length ≠ 1)) "t0"
        [⟨"iphone", "", "", "", "", "l1"⟩, ⟨"garden table", "", "", "", "", "l2"⟩]
        [("l1", "Electronics"), ("l2", "Electronics")]).1 ≠ 2 := by
  exact ⟨by decide, by decide⟩

/-- C2 amended: when the store is configured and every article has a category,
the batches are upserted once each — the number of upsert calls equals the
number of fixed-size batches, with no per-record retry — and the returned
count equals the total size of the batches whose single upsert succeeded;
the records of a failing batch are dropped from the count while the other
batches are unaffected. -/
theorem c2_amended (upsertFails : List CategorizedArticle → Bool)
    (nowIso : String) (articles : List Article)
    (articleCategories : List (String × String))
    (hcats : ∀ a ∈ articles, (lookupAssoc articleCategories a.link).isSome = true) :
    saveToSupabase true upsertFails nowIso articles articleCategories
      = (savedSum upsertFails (chunksOf 50 (articles.map (fun a =>
          toSupaRecord nowIso ((lookupAssoc articleCategories a.link).getD "") a))),
         (chunksOf 50 (articles.map (fun a =>
          toSupaRecord nowIso ((lookupAssoc articleCategories a.link).getD "") a))).length) := by
  have hnone : articles.any
      (fun a => (lookupAssoc articleCategories a.link).isNone) = false := by
    rw [List.any_eq_false]
    intro a ha
    have hs := hcats a ha
    cases h : lookupAssoc articleCategories a.link with
    | none => rw [h] at hs; simp at hs
    | some v => simp [h]
  unfold saveToSupabase
  rw [if_neg (by simp), if_neg (by simp [hnone])]
  rw [saveToSupabase_foldl_eq]
  simp

/-- Witness for the amended C2: concrete articles and categories, with the
first batch (both records) failing. -/
theorem c2_amended_witness :
    saveToSupabase true (fun b => decide (b.length ≠ 1)) "t0"
        [⟨"iphone", "", "", "", "", "l1"⟩]
        [("l1", "Electronics")]
      = (savedSum (fun b => decide (b.length ≠ 1)) (chunksOf 50
          ([⟨"iphone", "", "", "", "", "l1"⟩].map (fun a =>
            toSupaRecord "t0"
              ((lookupAssoc [("l1", "Electronics")] a.link).getD "") a))),
         (chunksOf 50 ([⟨"iphone", "", "", "", "", "l1"⟩].map (fun a =>
            toSupaRecord "t0"
              ((lookupAssoc [("l1", "Electronics")] a.link).getD "") a))).length) :=
  c2_amended (fun b => decide (b.length ≠ 1)) "t0"
    [⟨"iphone", "", "", "", "", "l1"⟩] [("l1", "Electronics")]
    (by decide)

/-! ### Lemmas about the sub-batch loop of `checkCache` -/

/-- Whether the store holds a record for id `k`. -/
def hitB (store : List CategorizedArticle) (k : String) : Bool :=
  store.any (fun r => k == r.article_id)

/-- Whether the sub-batch loop, started on batches `bs` at loop index `i`,
deletes key `k` from the article map: some batch contains `k`, its query does
not fail, and the store holds a record for `k`. -/
def deletedBy (configured : Bool) (store : List CategorizedArticle)
    (failsAt : Nat → Bool) : List (List String) → Nat → String → Bool
  | [], _, _ => false
  | b :: rest, i, k =>
    (configured && !failsAt i && hitB store k && b.contains k)
      || deletedBy configured store failsAt rest (i + 1) k

lemma foldl_processRow_fst :
    ∀ (data : List CategorizedArticle) (m : ArticleMap) (c : CatMap),
      (data.foldl processRow (m, c)).1
        = m.filter (fun p => !(data.any (fun r => p.1 == r.article_id)))
  | [], m, c => by simp
  | r :: data, m, c => by
    rw [List.foldl_cons,
      show processRow (m, c) r
        = (delAssoc m r.article_id, catPush c r.category (toArticleFromSupabase r))
        from rfl,
      foldl_processRow_fst data _ _, delAssoc, List.filter_filter]
    apply List.filter_congr
    intro p _
    simp [bne, Bool.and_comm]

lemma any_getDataInFilter (store : List CategorizedArticle) (b : List String)
    (k : String) :
    (getDataInFilter store b).any (fun r => k == r.article_id)
      = (hitB store k && b.contains k) := by
  unfold getDataInFilter hitB
  rw [Bool.eq_iff_iff, Bool.and_eq_true]
  constructor
  · intro h
    obtain ⟨r, hr, hk⟩ := List.any_eq_true.mp h
    obtain ⟨hrs, hrb⟩ := List.mem_filter.mp hr
    have hk' : k = r.article_id := by simpa using hk
    refine ⟨List.any_eq_true.mpr ⟨r, hrs, hk⟩, ?_⟩
    rw [hk']
    exact hrb
  · rintro ⟨hany, hb⟩
    obtain ⟨r, hr, hk⟩ := List.any_eq_true.mp hany
    have hk' : k = r.article_id := by simpa using hk
    refine List.any_eq_true.mpr ⟨r, List.mem_filter.mpr ⟨hr, ?_⟩, hk⟩
    rw [← hk']
    exact hb

lemma any_getDataFromSupabase (configured : Bool) (store : List CategorizedArticle)
    (fails : Bool) (b : List String) (k : String) :
    (getDataFromSupabase configured store fails b).any (fun r => k == r.article_id)
      = (configured && !fails && hitB store k && b.contains k) := by
  cases configured
  · simp [getDataFromSupabase]
  · cases fails
    · simp [getDataFromSupabase, any_getDataInFilter]
    · simp [getDataFromSupabase]

lemma processBatches_map (configured : Bool) (store : List CategorizedArticle)
    (failsAt : Nat → Bool) :
    ∀ (bs : List (List String)) (i : Nat) (s : BatchLoopState),
      (processBatches configured store failsAt bs i s).map
        = s.map.filter (fun p => !(deletedBy configured store failsAt bs i p.1))
  | [], i, s => by simp [processBatches, deletedBy]
  | b :: rest, i, s => by
    have hany : ∀ k, (getDataFromSupabase configured store (failsAt i) b).any
        (fun r => k == r.article_id)
        = (configured && !failsAt i && hitB store k && b.contains k) :=
      fun k => any_getDataFromSupabase configured store (failsAt i) b k
    cases hbe : b.isEmpty with
    | true =>
      have hb : b = [] := List.isEmpty_iff.mp hbe
      subst hb
      show (processBatches configured store failsAt rest (i + 1) s).map = _
      rw [processBatches_map configured store failsAt rest (i + 1) s]
      apply List.filter_congr
      intro p _
      simp [deletedBy]
    | false =>
      simp only [processBatches, hbe, Bool.false_eq_true, if_false]
      by_cases hd : 0 < (getDataFromSupabase configured store (failsAt i) b).length
      · simp only [if_pos hd]
        rw [processBatches_map configured store failsAt rest (i + 1) _]
        rw [foldl_processRow_fst, List.filter_filter]
        apply List.filter_congr
        intro p _
        rw [hany p.1]
        simp [deletedBy, Bool.and_comm]
      · simp only [if_neg hd]
        rw [processBatches_map configured store failsAt rest (i + 1) _]
        apply List.filter_congr
        intro p _
        have hdz : getDataFromSupabase configured store (failsAt i) b = [] := by
          cases h : getDataFromSupabase configured store (failsAt i) b
          · rfl
          · exfalso
            apply hd
            rw [h]
            simp
        have hfalse : (configured && !failsAt i && hitB store p.1 && b.contains p.1)
            = false := by
          rw [← hany p.1, hdz]
          rfl
        have hdel : deletedBy configured store failsAt (b :: rest) i p.1
            = deletedBy configured store failsAt rest (i + 1) p.1 := by
          show ((configured && !failsAt i && hitB store p.1 && b.contains p.1)
              || deletedBy configured store failsAt rest (i + 1) p.1) = _
          rw [hfalse]
          simp
        rw [hdel]

lemma chunksOfGo_flatten (n : Nat) :
    ∀ (fuel : Nat) (l : List α), l.length ≤ fuel →
      (chunksOfGo n fuel l).flatten = l
  | fuel, [], _ => by cases fuel <;> rfl
  | 0, x :: xs, h => by simp at h
  | fuel + 1, x :: xs, h => by
    simp only [List.length_cons] at h
    simp only [chunksOfGo, List.flatten_cons]
    rw [chunksOfGo_flatten n fuel (xs.drop (n - 1))
      (by simp only [List.length_drop]; omega)]
    rw [List.cons_append, List.take_append_drop]

lemma chunksOf_flatten (n : Nat) (l : List α) : (chunksOf n l).flatten = l :=
  chunksOfGo_flatten n l.length l le_rfl

lemma mem_keys_setAssoc {l : List (String × α)} {k kq : String} {v : α}
    (h : kq ∈ (setAssoc l k v).map (·.1)) : kq ∈ l.map (·.1) ∨ kq = k := by
  unfold setAssoc at h
  by_cases hc : l.any (fun p => p.1 == k)
  · rw [if_pos hc, List.map_map] at h
    obtain ⟨q, hq, hqe⟩ := List.mem_map.mp h
    simp only [Function.comp_apply] at hqe
    cases hqk : (q.1 == k) with
    | true =>
      right
      simp [hqk] at hqe
      exact hqe.symm
    | false =>
      left
      simp [hqk] at hqe
      exact List.mem_map.mpr ⟨q, hq, hqe⟩
  · rw [if_neg hc, List.map_append] at h
    rcases List.mem_append.mp h with h | h
    · exact Or.inl h
    · right
      simpa using h

lemma mem_keys_foldl_setAssoc :
    ∀ (articles : List Article) (m : ArticleMap) (p : String × Article),
      p ∈ articles.foldl (fun m a => setAssoc m (createArticleId a.link) a) m →
      p.1 ∈ m.map (·.1) ∨ p.1 ∈ articles.map (fun a => createArticleId a.link)
  | [], m, p, h => by
    left
    exact List.mem_map.mpr ⟨p, h, rfl⟩
  | a :: articles, m, p, h => by
    rw [List.foldl_cons] at h
    rcases mem_keys_foldl_setAssoc articles _ p h with h1 | h1
    · rcases mem_keys_setAssoc h1 with h2 | h2
      · exact Or.inl h2
      · right
        rw [List.map_cons, h2]
        exact List.mem_cons_self _ _
    · right
      rw [List.map_cons]
      exact List.mem_cons_of_mem _ h1

lemma deletedBy_of_mem_flatten (store : List CategorizedArticle) (k : String)
    (hk : hitB store k = true) :
    ∀ (bs : List (List String)) (i : Nat), k ∈ bs.flatten →
      deletedBy true store (fun _ => false) bs i k = true
  | [], _, h => by simp at h
  | b :: rest, i, h => by
    rw [List.flatten_cons] at h
    rcases List.mem_append.mp h with hb | hr
    · simp [deletedBy, hk, hb]
    · simp [deletedBy, deletedBy_of_mem_flatten store k hk rest (i + 1) hr]

/-- C5: for every non-empty list of articles whose ids are all present in the
durable store (and whose sub-batch lookups succeed), `categorizeArticles`
performs zero classifier calls and zero upsert calls, and returns exactly the
cached items grouped by category with `fromCache = true`; the only effects
are the lookup queries themselves. -/
theorem c5_all_cached_short_circuit (store : List CategorizedArticle)
    (classifier : Article → Except Unit String)
    (upsertFails : List CategorizedArticle → Bool) (nowIso : String)
    (useAIOpt saveOpt hasApiKey : Bool) (articles : List Article)
    (hne : articles ≠ [])
    (hall : ∀ a ∈ articles, hitB store (createArticleId a.link) = true) :
    categorizeArticles true store (fun _ => false) classifier upsertFails nowIso
        useAIOpt saveOpt hasApiKey (some articles)
      = ⟨(checkCache true store (fun _ => false) articles).cachedArticles,
         true, 0, 0,
         (checkCache true store (fun _ => false) articles).queryCalls⟩ := by
  have huncached :
      (checkCache true store (fun _ => false) articles).uncachedArticles = [] := by
    show ((processBatches true store (fun _ => false)
        (chunksOf 20 (articles.map (fun a => createArticleId a.link))) 0
        ⟨buildArticleMap articles, [], [], 0⟩).map).map (·.2) = []
    rw [processBatches_map]
    have hfil : (buildArticleMap articles).filter
        (fun p => !(deletedBy true store (fun _ => false)
          (chunksOf 20 (articles.map (fun a => createArticleId a.link))) 0 p.1))
        = [] := by
      apply List.filter_eq_nil_iff.mpr
      intro p hp
      rcases mem_keys_foldl_setAssoc articles [] p hp with h1 | h1
      · simp at h1
      · obtain ⟨a, ha, hid⟩ := List.mem_map.mp h1
        have hhit : hitB store p.1 = true := by rw [← hid]; exact hall a ha
        have hmem : p.1 ∈ (chunksOf 20
            (articles.map (fun a => createArticleId a.link))).flatten := by
          rw [chunksOf_flatten]
          exact h1
        simp [deletedBy_of_mem_flatten store p.1 hhit _ 0 hmem]
    rw [hfil]
    rfl
  cases articles with
  | nil => exact absurd rfl hne
  | cons x xs =>
    unfold categorizeArticles
    simp only [List.isEmpty_cons, Bool.false_eq_true, if_false, huncached,
      List.isEmpty_nil, if_true]

/-- Witness for C5 at a concrete input: one article whose record is in the
store. -/
theorem c5_all_cached_short_circuit_witness :
    categorizeArticles true [toSupaRecord "t0" "Electronics" ⟨"iphone", "", "", "", "", "l1"⟩]
        (fun _ => false) (fun _ => .error ()) (fun _ => false) "t"
        true true true (some [⟨"iphone", "", "", "", "", "l1"⟩])
      = ⟨(checkCache true [toSupaRecord "t0" "Electronics" ⟨"iphone", "", "", "", "", "l1"⟩]
            (fun _ => false) [⟨"iphone", "", "", "", "", "l1"⟩]).cachedArticles,
         true, 0, 0,
         (checkCache true [toSupaRecord "t0" "Electronics" ⟨"iphone", "", "", "", "", "l1"⟩]
            (fun _ => false) [⟨"iphone", "", "", "", "", "l1"⟩]).queryCalls⟩ :=
  c5_all_cached_short_circuit
    [toSupaRecord "t0" "Electronics" ⟨"iphone", "", "", "", "", "l1"⟩]
    (fun _ => .error ()) (fun _ => false) "t" true true true
    [⟨"iphone", "", "", "", "", "l1"⟩]
    (by decide) (by decide)

lemma foldl_setAssoc_fresh :
    ∀ (l : List Article) (m : ArticleMap),
      (∀ a ∈ l, ∀ p ∈ m, ¬ p.1 = createArticleId a.link) →
      (l.map (fun a => createArticleId a.link)).Nodup →
      l.foldl (fun m a => setAssoc m (createArticleId a.link) a) m
        = m ++ l.map (fun a => (createArticleId a.link, a))
  | [], m, _, _ => by simp
  | a :: l, m, hfresh, hnd => by
    have hany : m.any (fun p => p.1 == createArticleId a.link) = false := by
      rw [List.any_eq_false]
      intro p hp
      simp only [beq_iff_eq]
      exact hfresh a (List.mem_cons_self a l) p hp
    have hset : setAssoc m (createArticleId a.link) a
        = m ++ [(createArticleId a.link, a)] := by
      unfold setAssoc
      rw [hany]
      simp
    rw [List.foldl_cons, hset]
    rw [List.map_cons, List.nodup_cons] at hnd
    rw [foldl_setAssoc_fresh l (m ++ [(createArticleId a.link, a)]) ?_ hnd.2]
    · simp
    · intro b hb p hp
      rcases List.mem_append.mp hp with hp | hp
      · exact hfresh b (List.mem_cons_of_mem a hb) p hp
      · intro hpe
        have hp1 : p = (createArticleId a.link, a) := by simpa using hp
        apply hnd.1
        rw [hp1] at hpe
        have hpe' : createArticleId a.link = createArticleId b.link := hpe
        rw [hpe']
        exact List.mem_map.mpr ⟨b, hb, rfl⟩

lemma buildArticleMap_eq_of_nodup (articles : List Article)
    (hnd : (articles.map (fun a => createArticleId a.link)).Nodup) :
    buildArticleMap articles
      = articles.map (fun a => (createArticleId a.link, a)) := by
  unfold buildArticleMap
  rw [foldl_setAssoc_fresh articles [] (by simp) hnd]
  simp

lemma filter_map_pair (p : String → Bool) :
    ∀ l : List Article,
      ((l.map (fun a => (createArticleId a.link, a))).filter
        (fun q => p q.1)).map (·.2)
        = l.filter (fun a => p (createArticleId a.link))
  | [] => rfl
  | a :: l => by
    simp only [List.map_cons, List.filter_cons]
    cases h : p (createArticleId a.link) with
    | true => simp [h, filter_map_pair p l]
    | false => simp [h, filter_map_pair p l]

lemma deletedBy_eq_true_iff (configured : Bool) (store : List CategorizedArticle)
    (failsAt : Nat → Bool) :
    ∀ (bs : List (List String)) (i : Nat) (k : String),
      deletedBy configured store failsAt bs i k = true
        ↔ ∃ t b, bs[t]? = some b ∧ failsAt (i + t) = false ∧ k ∈ b
            ∧ configured = true ∧ hitB store k = true
  | [], i, k => by simp [deletedBy]
  | b :: rest, i, k => by
    constructor
    · intro h
      rcases Bool.or_eq_true_iff.mp h with h | h
      · refine ⟨0, b, by simp, ?_, ?_, ?_, ?_⟩
        · simp only [Bool.and_eq_true, Bool.not_eq_true'] at h
          rw [Nat.add_zero]
          exact h.1.1.2
        · simp only [Bool.and_eq_true] at h
          simpa using h.2
        · simp only [Bool.and_eq_true] at h
          exact h.1.1.1
        · simp only [Bool.and_eq_true] at h
          exact h.1.2
      · obtain ⟨t, b', hb', hf, hk, hc, hh⟩ :=
          (deletedBy_eq_true_iff configured store failsAt rest (i + 1) k).mp h
        refine ⟨t + 1, b', ?_, ?_, hk, hc, hh⟩
        · simpa using hb'
        · rw [show i + (t + 1) = i + 1 + t by omega]
          exact hf
    · rintro ⟨t, b', hb', hf, hk, hc, hh⟩
      cases t with
      | zero =>
        have hbb : b = b' := by simpa using hb'
        subst hbb
        apply Bool.or_eq_true_iff.mpr
        left
        rw [Nat.add_zero] at hf
        simp [hc, hf, hh, hk]
      | succ t =>
        apply Bool.or_eq_true_iff.mpr
        right
        apply (deletedBy_eq_true_iff configured store failsAt rest (i + 1) k).mpr
        refine ⟨t, b', by simpa using hb', ?_, hk, hc, hh⟩
        rw [show i + 1 + t = i + (t + 1) by omega]
        exact hf

/-- C7: with exactly the `j`-th sub-batch query failing (and distinct article
ids), `checkCache` still returns a full partition: the uncached articles are
exactly those of the failing sub-batch together with those having no record
in the store — so the failing sub-batch's articles are re-classified, not
dropped; and every article of the failing sub-batch is in the uncached
partition. -/
theorem c7_failing_subbatch_isolated (store : List CategorizedArticle)
    (articles : List Article) (j : Nat)
    (hnd : (articles.map (fun a => createArticleId a.link)).Nodup) :
    (checkCache true store (fun i => i == j) articles).uncachedArticles
      = articles.filter (fun a =>
          ((chunksOf 20 (articles.map (fun a => createArticleId a.link)))[j]?.getD
              []).contains (createArticleId a.link)
          || !(hitB store (createArticleId a.link)))
    ∧ ∀ a ∈ articles,
        ((chunksOf 20 (articles.map (fun a => createArticleId a.link)))[j]?.getD
            []).contains (createArticleId a.link) = true →
        a ∈ (checkCache true store (fun i => i == j) articles).uncachedArticles := by
  set ids := articles.map (fun a => createArticleId a.link) with hids
  set bs := chunksOf 20 ids with hbs
  have hflat : bs.flatten = ids := chunksOf_flatten 20 ids
  have hndflat : bs.flatten.Nodup := by rw [hflat]; exact hnd
  have hdisj : ∀ (t1 t2 : Nat) (b1 b2 : List String),
      bs[t1]? = some b1 → bs[t2]? = some b2 →
      t1 ≠ t2 → ∀ x ∈ b1, x ∉ b2 := by
    have hpw := (List.nodup_flatten.mp hndflat).2
    rw [List.pairwise_iff_getElem] at hpw
    intro t1 t2 b1 b2 h1 h2 hne x hx
    obtain ⟨ht1, hb1⟩ := List.getElem?_eq_some_iff.mp h1
    obtain ⟨ht2, hb2⟩ := List.getElem?_eq_some_iff.mp h2
    rcases Nat.lt_or_ge t1 t2 with hlt | hge
    · have hd := hpw t1 t2 ht1 ht2 hlt
      rw [hb1, hb2] at hd
      exact fun hx2 => hd hx hx2
    · have hlt2 : t2 < t1 := by omega
      have hd := hpw t2 t1 ht2 ht1 hlt2
      rw [hb1, hb2] at hd
      exact fun hx2 => hd hx2 hx
  have hkey : ∀ k, k ∈ ids →
      (!(deletedBy true store (fun i => i == j) bs 0 k))
        = ((bs[j]?.getD []).contains k || !(hitB store k)) := by
    intro k hk
    cases hhit : hitB store k with
    | false =>
      have hdel : deletedBy true store (fun i => i == j) bs 0 k = false := by
        cases hd : deletedBy true store (fun i => i == j) bs 0 k
        · rfl
        · obtain ⟨t, b, _, _, _, _, hh⟩ :=
            (deletedBy_eq_true_iff true store (fun i => i == j) bs 0 k).mp hd
          rw [hhit] at hh
          exact absurd hh (by simp)
      rw [hdel]
      simp
    | true =>
      cases hmem : ((bs[j]?.getD []).contains k) with
      | true =>
        obtain ⟨bj, hj, hkbj⟩ : ∃ bj, bs[j]? = some bj ∧ k ∈ bj := by
          cases hj : bs[j]? with
          | none => rw [hj] at hmem; simp at hmem
          | some bj =>
            refine ⟨bj, rfl, ?_⟩
            rw [hj] at hmem
            simpa using hmem
        have hdel : deletedBy true store (fun i => i == j) bs 0 k = false := by
          cases hd : deletedBy true store (fun i => i == j) bs 0 k
          · rfl
          · obtain ⟨t, b, hbt, hf, hkb, _, _⟩ :=
              (deletedBy_eq_true_iff true store (fun i => i == j) bs 0 k).mp hd
            have htj : t ≠ j := by simpa using hf
            exact absurd hkbj (hdisj t j b bj hbt hj htj k hkb)
        rw [hdel]
        rfl
      | false =>
        have hkfl : k ∈ bs.flatten := by rw [hflat]; exact hk
        obtain ⟨b, hbmem, hkb⟩ := List.mem_flatten.mp hkfl
        obtain ⟨t, ht, hbt⟩ := List.mem_iff_getElem.mp hbmem
        have hbt? : bs[t]? = some b := List.getElem?_eq_some_iff.mpr ⟨ht, hbt⟩
        have htj : t ≠ j := by
          intro he
          subst he
          rw [hbt?] at hmem
          simp at hmem
          exact hmem hkb
        have hdel : deletedBy true store (fun i => i == j) bs 0 k = true := by
          apply (deletedBy_eq_true_iff true store (fun i => i == j) bs 0 k).mpr
          refine ⟨t, b, hbt?, ?_, hkb, rfl, hhit⟩
          simp [htj]
        rw [hdel]
        rfl
  have hmain : (checkCache true store (fun i => i == j) articles).uncachedArticles
      = articles.filter (fun a =>
          ((bs[j]?.getD []).contains (createArticleId a.link)
            || !(hitB store (createArticleId a.link)))) := by
    show ((processBatches true store (fun i => i == j) bs 0
        ⟨buildArticleMap articles, [], [], 0⟩).map).map (·.2) = _
    rw [processBatches_map, buildArticleMap_eq_of_nodup articles hnd]
    have hproj : (BatchLoopState.mk
        (articles.map (fun a => (createArticleId a.link, a))) [] [] 0).map
        = articles.map (fun a => (createArticleId a.link, a)) := rfl
    rw [hproj, filter_map_pair
      (fun k => !(deletedBy true store (fun i => i == j) bs 0 k)) articles]
    apply List.filter_congr
    intro a ha
    exact hkey (createArticleId a.link) (List.mem_map.mpr ⟨a, ha, rfl⟩)
  refine ⟨hmain, ?_⟩
  intro a ha hc
  rw [hmain]
  apply List.mem_filter.mpr
  refine ⟨ha, ?_⟩
  have hmemb : createArticleId a.link ∈ bs[j]?.getD [] := by simpa using hc
  simp [hmemb]

/-- Witness for C7 at a concrete input: two articles, both present in the
store, with the single sub-batch query (index 0) failing — both articles land
in the uncached partition instead of being dropped. -/
theorem c7_failing_subbatch_isolated_witness :
    (checkCache true
        [toSupaRecord "t0" "Electronics" ⟨"iphone", "", "", "", "", "l1"⟩,
         toSupaRecord "t0" "Home & Household" ⟨"garden table", "", "", "", "", "l2"⟩]
        (fun i => i == 0)
        [⟨"iphone", "", "", "", "", "l1"⟩,
         ⟨"garden table", "", "", "", "", "l2"⟩]).uncachedArticles
      = [⟨"iphone", "", "", "", "", "l1"⟩,
         ⟨"garden table", "", "", "", "", "l2"⟩].filter (fun a =>
          ((chunksOf 20 ([⟨"iphone", "", "", "", "", "l1"⟩,
              (⟨"garden table", "", "", "", "", "l2"⟩ : Article)].map
              (fun a => createArticleId a.link)))[0]?.getD []).contains
            (createArticleId a.link)
          || !(hitB
              [toSupaRecord "t0" "Electronics" ⟨"iphone", "", "", "", "", "l1"⟩,
               toSupaRecord "t0" "Home & Household" ⟨"garden table", "", "", "", "", "l2"⟩]
              (createArticleId a.link))) :=
  (c7_failing_subbatch_isolated
    [toSupaRecord "t0" "Electronics" ⟨"iphone", "", "", "", "", "l1"⟩,
     toSupaRecord "t0" "Home & Household" ⟨"garden table", "", "", "", "", "l2"⟩]
    [⟨"iphone", "", "", "", "", "l1"⟩, ⟨"garden table", "", "", "", "", "l2"⟩]
    0 (by decide)).1

/-! ### The durable-store query client (`getData` in `src/services/supabase.ts`)

Building a PostgREST query (`from`, `select`, `filter`, `order`, `limit`,
`range`) performs no I/O; the single network call happens when the built
query is awaited. The remote store's answer to a built query is the oracle
`remote`; `getData` returns the rows together with the number of network
calls issued. -/

/-- The value of a query filter: an array (for `in`) or a scalar. -/
inductive FilterValue where
  | arr (xs : List String)
  | scalar (s : String)
deriving DecidableEq, Repr

/-- `options.filter` of `GetDataOptions`. -/
structure QueryFilter where
  column : String
  operator : String
  value : FilterValue
deriving DecidableEq, Repr

/-- `GetDataOptions` from `src/services/supabase.ts` (the `order.ascending`
flag is optional, defaulted with `?? true`). -/
structure GetDataOptions where
  select : Option String := none
  filter : Option QueryFilter := none
  order : Option (String × Option Bool) := none
  limit : Option Nat := none
  offset : Option Nat := none
deriving DecidableEq, Repr

/-- The query object accumulated before the single awaited network call. -/
structure BuiltQuery where
  table : String
  select : String
  filters : List (String × String × String)
  order : Option (String × Bool)
  limit : Option Nat
  range : Option (Nat × Nat)
deriving DecidableEq, Repr

/-- `String(v).replace(/'/g, "''")` — escape single quotes (code 39). -/
def pgEscape (s : String) : String :=
  ⟨s.data.flatMap (fun c =>
    if c.toNat == 39 then [Char.ofNat 39, Char.ofNat 39] else [c])⟩

/-- Model of `Array.prototype.join(',')`. -/
def joinComma : List String → String
  | [] => ""
  | [x] => x
  | x :: y :: rest => x ++ "," ++ joinComma (y :: rest)

/-- JavaScript `x || d` on an optional number (`0` and missing are falsy). -/
def jsOrDefault (o : Option Nat) (d : Nat) : Nat :=
  match o with
  | some n => if n = 0 then d else n
  | none => d

/-- `getData` from `src/services/supabase.ts`: fails when the service client
is not initialized; an `in` filter with an empty array returns `[]` before
the query is awaited (zero network calls); otherwise the filter, order,
limit and offset are applied to the built query and one network call is
made. Returns the rows and the number of network calls. -/
def getData (remote : BuiltQuery → List CategorizedArticle) (configured : Bool)
    (table : String) (options : GetDataOptions) :
    Except String (List CategorizedArticle × Nat) :=
  if !configured then .error "Supabase service client is not initialized"
  else
    let q0 : BuiltQuery := ⟨table, options.select.getD "*", [], none, none, none⟩
    let run : BuiltQuery → Except String (List CategorizedArticle × Nat) := fun q =>
      let q1 := match options.order with
        | some o => { q with order := some (o.1, o.2.getD true) }
        | none => q
      let q2 := match options.limit with
        | some n => if n ≠ 0 then { q1 with limit := some n } else q1
        | none => q1
      let q3 := match options.offset with
        | some o => { q2 with range := some (o, o + jsOrDefault options.limit 10 - 1) }
        | none => q2
      .ok (remote q3, 1)
    match options.filter with
    | none => run q0
    | some f =>
      match f.value with
      | .arr value =>
        if strToLower f.operator == "in" then
          if value.isEmpty then .ok ([], 0)
          else run { q0 with filters :=
            [(f.column, "in", "(" ++ joinComma (value.map pgEscape) ++ ")")] }
        else run { q0 with filters := [(f.column, f.operator, joinComma value)] }
      | .scalar s => run { q0 with filters := [(f.column, f.operator, s)] }

/-- C9: for every query whose filter is `in`-membership (case-insensitive
operator) with an empty set, `getData` on an initialized client returns the
empty list immediately with zero network calls. -/
theorem c9_empty_in_set_no_network (remote : BuiltQuery → List CategorizedArticle)
    (table : String) (options : GetDataOptions) (col op : String)
    (hf : options.filter = some ⟨col, op, .arr []⟩)
    (hop : strToLower op = "in") :
    getData remote true table options = .ok ([], 0) := by
  simp [getData, hf, hop]

/-- Witness for C9: a concrete query with operator "IN" and an empty id set. -/
theorem c9_empty_in_set_no_network_witness :
    getData (fun _ => []) true "categorized_articles"
        { filter := some ⟨"article_id", "IN", .arr []⟩ }
      = .ok ([], 0) :=
  c9_empty_in_set_no_network (fun _ => []) "categorized_articles"
    { filter := some ⟨"article_id", "IN", .arr []⟩ }
    "article_id" "IN" rfl (by decide)

/-! ### The cache orchestrator (`getCachedArticles` in
`src/services/articlesService.ts`)

Time is integer seconds. `oldestDate = now − days` (a day subtraction on a
JS `Date`) is modelled as `now − days·86400` seconds, and `toISOString()` as
an injective rendering of that timestamp; the rendered string is only passed
opaquely to the remote store's `gte` filter. The local SQLite cache is the
`CacheState` model above, with the whole response object as payload. -/

/-- `toArticle` from `src/services/supabase.ts`. -/
def toArticle (r : CategorizedArticle) : Article :=
  { title := r.title, description := r.description, price := r.price,
    shippingPrice := r.shipping_price, image := r.image, link := r.link }

/-- `config.CACHE.DEFAULTS.MAX_RESULTS` (500, the hard result ceiling). -/
def MAX_RESULTS : Nat := 500

/-- `config.CACHE.DEFAULTS.DAYS_TO_CACHE` (7). -/
def DAYS_TO_CACHE : Nat := 7

/-- Model of `Date.toISOString()` on an integer timestamp: an injective
rendering, passed opaquely to the store's `gte` filter. -/
def isoOfTime (t : Int) : String := "iso:" ++ toString t

/-- The `stats` object of a cached-articles response. -/
structure ArticlesStats where
  totalArticles : Nat
  categories : List String
  categoriesCount : Nat
  daysRetrieved : Nat
  fromDate : String
  fromCache : Bool
  fromLocalCache : Bool
  minCachedRequirement : String
deriving DecidableEq, Repr

/-- `CategorizedArticlesResult` from `src/services/articlesService.ts`
(restricted to the fields this service writes). -/
structure CategorizedArticlesResult where
  categorizedArticles : CatMap
  stats : ArticlesStats
deriving DecidableEq, Repr

/-- The effects of one `getCachedArticles` call: ephemeral-cache reads and
writes, and durable-store network queries. -/
structure SvcEffects where
  ephemeralReads : Nat
  ephemeralWrites : Nat
  durableQueries : Nat
deriving DecidableEq, Repr

/-- `getCachedArticles` from `src/services/articlesService.ts`: validate the
`limit` against the hard ceiling FIRST (throwing before anything else);
check the configuration; then read the local cache (unless skipped), on a
miss query the durable store for records newer than `now − days`, group by
category, and write the response through to the local cache when non-empty.
Returns the response (or the thrown error), the resulting local-cache state
and the effect counts. -/
def getCachedArticles (remote : BuiltQuery → List CategorizedArticle)
    (supaConfigured : Bool) (now : Int) (days? limit? : Option Nat)
    (minCached : Option Nat) (skipLocalCache : Bool)
    (st : CacheState CategorizedArticlesResult) :
    Except String CategorizedArticlesResult
      × CacheState CategorizedArticlesResult × SvcEffects :=
  let days := jsOrDefault days? DAYS_TO_CACHE
  let limit := jsOrDefault limit? MAX_RESULTS
  if limit > MAX_RESULTS then
    (.error ("Invalid request: limit must be less than or equal to "
      ++ toString MAX_RESULTS), st, ⟨0, 0, 0⟩)
  else if !supaConfigured then
    (.error "Cache service unavailable: Supabase not configured", st, ⟨0, 0, 0⟩)
  else
    let cacheKey := "articles_cached_days_" ++ toString days
      ++ "_limit_" ++ toString limit
    let cachedResult := if skipLocalCache then none
      else getCachedValue st now cacheKey
    let reads : Nat := if skipLocalCache then 0 else 1
    match cachedResult with
    | some r =>
      (.ok { r with stats := { r.stats with fromLocalCache := true } },
        st, ⟨reads, 0, 0⟩)
    | none =>
      let oldestDateIso := isoOfTime (now - (days : Int) * 86400)
      match getData remote supaConfigured "categorized_articles"
        { filter := some ⟨"created_at", "gte", .scalar oldestDateIso⟩,
          order := some ("created_at", some false),
          limit := some limit } with
      | .error e =>
        (.error ("Failed to fetch cached articles: " ++ e), st, ⟨reads, 0, 0⟩)
      | .ok (data, calls) =>
        let categorizedArticles :=
          data.foldl (fun c r => catPush c r.category (toArticle r)) []
        let totalArticles := data.length
        let categories := categorizedArticles.map (·.1)
        let minReq := match minCached with
          | some m => toString totalArticles ++ "/" ++ toString m
          | none => "not specified"
        let result : CategorizedArticlesResult :=
          ⟨categorizedArticles,
            ⟨totalArticles, categories, categories.length, days, oldestDateIso,
              true, false, minReq⟩⟩
        if !skipLocalCache && decide (0 < totalArticles) then
          ((.ok result), (setCachedValue st now cacheKey result defaultTTL).1,
            ⟨reads, 1, calls⟩)
        else ((.ok result), st, ⟨reads, 0, calls⟩)

/-- C8: a `getCachedArticles` call whose `limit` exceeds the configured hard
ceiling is rejected with a validation error before any ephemeral-cache read
or durable-store query is issued, and the cache state is unchanged. -/
theorem c8_limit_ceiling_rejected (remote : BuiltQuery → List CategorizedArticle)
    (supaConfigured : Bool) (now : Int) (days? : Option Nat) (n : Nat)
    (minCached : Option Nat) (skipLocalCache : Bool)
    (st : CacheState CategorizedArticlesResult)
    (hn : MAX_RESULTS < n) :
    getCachedArticles remote supaConfigured now days? (some n) minCached
        skipLocalCache st
      = (.error ("Invalid request: limit must be less than or equal to "
          ++ toString MAX_RESULTS), st, ⟨0, 0, 0⟩) := by
  have hn0 : ¬ n = 0 := by
    intro h
    rw [h] at hn
    exact absurd hn (by decide)
  have hl : jsOrDefault (some n) MAX_RESULTS = n := by
    simp [jsOrDefault, hn0]
  unfold getCachedArticles
  rw [hl, if_pos hn]

/-- Witness for C8 at the spec's concrete scenario: `days = 7`,
`limit = 2000` (ceiling 500) is rejected before any store access. -/
theorem c8_limit_ceiling_rejected_witness :
    getCachedArticles (fun _ => []) true 0 (some 7) (some 2000) none false []
      = (.error ("Invalid request: limit must be less than or equal to "
          ++ toString MAX_RESULTS), [], ⟨0, 0, 0⟩) :=
  c8_limit_ceiling_rejected (fun _ => []) true 0 (some 7) 2000 none false []
    (by decide)

/-! ### The refresh-scheduler run guard (`src/lib/scheduler.ts`)

The cron callback of `scheduleFetchCategorizeCache` guards itself with the
module-level `isJobRunning` flag. The callback's work is the single HTTP
request that drives the fetch-categorize-cache endpoint (all fetches and
persists happen behind that request), counted in `httpRequests`; clearing
the flag in the `finally` block is counted in `flagClears`. The JavaScript
event loop runs the flag test and set without interleaving, so one callback
invocation is one atomic step on the state. -/

/-- The scheduler's observable state. -/
structure SchedState where
  isJobRunning : Bool
  httpRequests : Nat
  flagClears : Nat
deriving DecidableEq, Repr

/-- One invocation of the cron callback: if `isJobRunning` is set, log and
return without any work; otherwise set the flag, issue the HTTP request
(whether or not the await then rejects — `throws` — the catch only logs),
and clear the flag in the `finally` block. -/
def runScheduledJob (throws : Bool) (s : SchedState) : SchedState :=
  if s.isJobRunning then s
  else
    let s1 := { s with isJobRunning := true }
    let s2 := { s1 with httpRequests := s1.httpRequests + 1 }
    let _ : Bool := throws
    { s2 with isJobRunning := false, flagClears := s2.flagClears + 1 }

/-- C4: an invocation that finds the run-flag set does no work at all (the
state, including the request count, is unchanged); an actual run — whether
the request succeeds or rejects — leaves the flag cleared and clears it
exactly once. -/
theorem c4_run_overlap_guard (throws : Bool) (s : SchedState) :
    runScheduledJob throws { s with isJobRunning := true }
      = { s with isJobRunning := true }
    ∧ (runScheduledJob throws { s with isJobRunning := false }).isJobRunning
      = false
    ∧ (runScheduledJob throws { s with isJobRunning := false }).flagClears
      = s.flagClears + 1
    ∧ (runScheduledJob throws { s with isJobRunning := false }).httpRequests
      = s.httpRequests + 1 :=
  ⟨rfl, rfl, rfl, rfl⟩
